import Mathlib

/-!
Verification of the G1 concurrent-marking engine header
(src/hotspot/share/gc/g1/g1ConcurrentMark.hpp) against its specification.

Shallow embedding conventions:
- Heap addresses and machine words are natural numbers. Word-aligned
  addresses are even; the tag-bit operations of G1TaskQueueEntry are
  rendered as the equivalent arithmetic on the low bit (x | 1 on an even
  x is x + 1; x & ~1 is x - x % 2; x & 1 is x % 2).
- Method bodies that live only in the missing .cpp / .inline.hpp files are
  modelled from the specification text (and, where present, from the
  declaration comments inside the header); each such definition carries a
  doc comment starting with: Modelled from the spec.
- Concurrency is rendered by linearizing the atomic operations: the global
  finger and the mark-stack list heads are single atomics, so any parallel
  execution is a sequential interleaving of the atomic steps, which we
  model as explicit operation traces.
-/

set_option autoImplicit false

/-- G1TaskQueueEntry (header lines 51-91): a container for either an oop or
an array-slice continuation address, held in one machine word. -/
structure G1TaskQueueEntry where
  holder : Nat
deriving DecidableEq, Repr

/-- The low tag bit: static const uintptr_t ArraySliceBit = 1. -/
def G1TaskQueueEntry.ArraySliceBit : Nat := 1

/-- The default constructor: holder = NULL (the all-zero word). -/
def G1TaskQueueEntry.default_entry : G1TaskQueueEntry := ⟨0⟩

/-- from_oop: stores the object reference unchanged (the oop constructor
just sets holder to the given word). -/
def G1TaskQueueEntry.from_oop (obj : Nat) : G1TaskQueueEntry := ⟨obj⟩

/-- from_slice: stores addr with the low tag bit set, (uintptr_t)addr | ArraySliceBit.
For a word-aligned (even) addr this equals addr + ArraySliceBit. -/
def G1TaskQueueEntry.from_slice (addr : Nat) : G1TaskQueueEntry :=
  ⟨addr + G1TaskQueueEntry.ArraySliceBit⟩

/-- is_array_slice: ((uintptr_t)holder & ArraySliceBit) != 0, i.e. the low bit
of the word is set. -/
def G1TaskQueueEntry.is_array_slice (e : G1TaskQueueEntry) : Bool :=
  decide (e.holder % 2 ≠ 0)

/-- is_oop: !is_array_slice(). -/
def G1TaskQueueEntry.is_oop (e : G1TaskQueueEntry) : Bool :=
  !e.is_array_slice

/-- obj(): reads the holder word back as an object reference. -/
def G1TaskQueueEntry.obj (e : G1TaskQueueEntry) : Nat := e.holder

/-- slice(): (uintptr_t)holder & ~ArraySliceBit, i.e. the word with its low
bit cleared. -/
def G1TaskQueueEntry.slice (e : G1TaskQueueEntry) : Nat :=
  e.holder - e.holder % 2

/-- is_null(): holder == NULL. -/
def G1TaskQueueEntry.is_null (e : G1TaskQueueEntry) : Bool :=
  decide (e.holder = 0)

/-- Number of TaskQueueEntries that can fit in a single chunk
(header line 134): 1024 - 1, one reference reserved for the next pointer. -/
def G1CMMarkStack.EntriesPerChunk : Nat := 1024 - 1

/-- State of the global overflow mark stack (header lines 131-216).
A chunk is represented by its data buffer; the free list only needs its
length (free chunks carry no live data); hwm counts chunks ever allocated
from the reservation. -/
structure G1CMMarkStack where
  chunk_list : List (List G1TaskQueueEntry)
  free_list : Nat
  hwm : Nat
  chunk_capacity : Nat
  max_chunk_capacity : Nat
deriving DecidableEq, Repr

/-- Modelled from the spec: the body of G1CMMarkStack::par_push_chunk is not
under src (only its declaration, header lines 186-191). Spec 4.2: acquire a
chunk from the free_list, else bump hwm if below chunk_capacity, else return
false (overflow); copy the buffer into the chunk and CAS it onto the
chunk_list head. Returns the new state on success, none on overflow. -/
def G1CMMarkStack.par_push_chunk (s : G1CMMarkStack)
    (buffer : List G1TaskQueueEntry) : Option G1CMMarkStack :=
  if 0 < s.free_list then
    some { s with free_list := s.free_list - 1,
                  chunk_list := buffer :: s.chunk_list }
  else if s.hwm < s.chunk_capacity then
    some { s with hwm := s.hwm + 1,
                  chunk_list := buffer :: s.chunk_list }
  else
    none

/-- Modelled from the spec: the body of G1CMMarkStack::par_pop_chunk is not
under src (only its declaration, header lines 193-196). Spec 4.2: CAS-remove
the head of chunk_list; if none, return false; copy the chunk data into the
buffer and release the chunk onto the free_list. -/
def G1CMMarkStack.par_pop_chunk (s : G1CMMarkStack) :
    Option (List G1TaskQueueEntry × G1CMMarkStack) :=
  match s.chunk_list with
  | [] => none
  | c :: rest => some (c, { s with chunk_list := rest,
                                   free_list := s.free_list + 1 })

/-- is_empty (header line 200): whether the chunk list is empty. -/
def G1CMMarkStack.is_empty (s : G1CMMarkStack) : Bool := s.chunk_list.isEmpty

/-- capacity (header line 202). -/
def G1CMMarkStack.capacity (s : G1CMMarkStack) : Nat := s.chunk_capacity

/-- size (header line 209): chunks_in_chunk_list * EntriesPerChunk. -/
def G1CMMarkStack.size (s : G1CMMarkStack) : Nat :=
  s.chunk_list.length * G1CMMarkStack.EntriesPerChunk

/-- Modelled from the spec: the body of G1CMMarkStack::resize is not under
src (only its declaration, header lines 172-174, and the class comment,
lines 114-130: resizing may only happen during a STW pause when the stack is
empty; releases any previous memory if successful). The new reservation is
fresh: both lists and the high-water mark restart empty at the new
capacity. -/
def G1CMMarkStack.resize (s : G1CMMarkStack) (new_capacity : Nat) :
    G1CMMarkStack :=
  { s with chunk_capacity := new_capacity,
           chunk_list := [],
           free_list := 0,
           hwm := 0 }

/-- Modelled from the spec: the body of G1CMMarkStack::expand is not under
src (only its declaration, header lines 204-205). Spec 4.2: during a STW
point, double chunk_capacity up to max_chunk_capacity, discarding the free
list (all chunks re-derivable from hwm / the reservation). -/
def G1CMMarkStack.expand (s : G1CMMarkStack) : G1CMMarkStack :=
  s.resize (min (2 * s.chunk_capacity) s.max_chunk_capacity)

/-- An operation performed on the global mark stack by some worker. Since
the list heads are single atomics, a concurrent execution linearizes into a
sequence of these operations. -/
inductive MSOp where
  | push (buffer : List G1TaskQueueEntry)
  | pop
deriving DecidableEq, Repr

/-- Run a linearized trace of mark-stack operations, collecting the buffers
returned by the successful pops in order. -/
def runMarkStackOps : G1CMMarkStack → List MSOp →
    G1CMMarkStack × List (List G1TaskQueueEntry)
  | s, [] => (s, [])
  | s, MSOp.push buffer :: ops =>
    match s.par_push_chunk buffer with
    | some s1 => runMarkStackOps s1 ops
    | none => runMarkStackOps s ops
  | s, MSOp.pop :: ops =>
    match s.par_pop_chunk with
    | some r => ((runMarkStackOps r.2 ops).1, r.1 :: (runMarkStackOps r.2 ops).2)
    | none => runMarkStackOps s ops

/-- Strip the trailing NULL terminator entries of a chunk buffer (a chunk
holding fewer than EntriesPerChunk entries is NULL-terminated, header
lines 122-123). -/
def dropTrailingNulls (l : List G1TaskQueueEntry) : List G1TaskQueueEntry :=
  (l.reverse.dropWhile (fun e => e.is_null)).reverse

/-- A heap region (external collaborator; spec section 3): a contiguous
range [bottom, rend) with its top-at-mark-start address. The field rend is
the end address of the region (end is reserved in Lean). A region is empty
when tams = bottom. -/
structure HeapRegion where
  bottom : Nat
  rend : Nat
  tams : Nat
deriving DecidableEq, Repr

/-- The heap as seen by the marking engine: bounds (header lines 301-303),
the fixed region size, and the per-region top-at-mark-start provided by the
HeapRegion provider (keyed by region bottom). -/
structure G1Heap where
  heap_start : Nat
  heap_end : Nat
  region_size : Nat
  tams_of : Nat → Nat

/-- Index of the region covering an address. -/
def G1Heap.region_index (h : G1Heap) (addr : Nat) : Nat :=
  (addr - h.heap_start) / h.region_size

/-- The region covering an address. -/
def G1Heap.region_at (h : G1Heap) (addr : Nat) : HeapRegion :=
  let bottom := h.heap_start + h.region_index addr * h.region_size
  ⟨bottom, bottom + h.region_size, h.tams_of bottom⟩

/-- Modelled from the spec: the body of G1ConcurrentMark::claim_region is
not under src (only its declaration and comment, header lines 406-420, and
out_of_regions, line 427). Spec 4.5: atomically fetch-add the finger by the
size of the region starting at the current finger; if the pre-value is at
least heap_end, return none. Header comment, lines 407-408: it might also
return NULL if the next region is empty (tams = bottom) even though the
claim itself succeeded and the finger advanced; the caller then uses
out_of_regions() to decide whether to call claim_region again. Returns the
claimed region (if any) together with the new finger value. -/
def claim_region (h : G1Heap) (finger : Nat) : Option HeapRegion × Nat :=
  let post := finger + h.region_size
  if h.heap_end ≤ finger then
    (none, post)
  else
    let r := h.region_at finger
    if r.tams = r.bottom then
      (none, post)
    else
      (some r, post)

/-- out_of_regions (header line 427): finger >= heap_end. -/
def out_of_regions (h : G1Heap) (finger : Nat) : Bool :=
  decide (h.heap_end ≤ finger)

/-- Run a linearized trace of n claim_region calls (the finger is a single
atomic word, so the fetch-adds of all workers totally order). Returns the
per-call results and the final finger. -/
def runClaims (h : G1Heap) : Nat → Nat → List (Option HeapRegion) × Nat
  | finger, 0 => ([], finger)
  | finger, n + 1 =>
    let step := claim_region h finger
    let rest := runClaims h step.2 n
    (step.1 :: rest.1, rest.2)

/-- Root regions state (header lines 231-274). The survivor snapshot is the
list of root regions; claimed_survivor_index is the atomic claim cursor. -/
structure G1CMRootRegions where
  survivors : List HeapRegion
  scan_in_progress : Bool
  should_abort : Bool
  claimed_survivor_index : Nat
deriving DecidableEq, Repr

/-- abort (header line 251): forces claim_next to return NULL so that the
iteration aborts early; sets should_abort. -/
def G1CMRootRegions.abort (s : G1CMRootRegions) : G1CMRootRegions :=
  { s with should_abort := true }

/-- Modelled from the spec: the body of G1CMRootRegions::claim_next is not
under src (only its declaration, header lines 257-259). Spec 4.4: if
should_abort, return none; otherwise atomically increment claimed_index and
return survivors[old_index], or none when past the end. -/
def G1CMRootRegions.claim_next (s : G1CMRootRegions) :
    Option HeapRegion × G1CMRootRegions :=
  if s.should_abort then
    (none, s)
  else
    (s.survivors.get? s.claimed_survivor_index,
     { s with claimed_survivor_index := s.claimed_survivor_index + 1 })

/-- Run n successive claim_next calls, collecting the results. -/
def runClaimNext : G1CMRootRegions → Nat → List (Option HeapRegion) × G1CMRootRegions
  | s, 0 => ([], s)
  | s, n + 1 =>
    let step := s.claim_next
    let rest := runClaimNext step.2 n
    (step.1 :: rest.1, rest.2)

/-- Global concurrent-marking state visible to the claims under proof:
the global mark stack, the overflow flag (header line 335), the global
finger (header lines 310-312), the heap end and the next mark bitmap
(modelled as the list of marked addresses). -/
structure G1ConcurrentMark where
  global_mark_stack : G1CMMarkStack
  has_overflown : Bool
  finger : Nat
  heap_end : Nat
  next_mark_bitmap : List Nat
deriving DecidableEq, Repr

/-- set_has_overflown (header line 438). -/
def G1ConcurrentMark.set_has_overflown (cm : G1ConcurrentMark) : G1ConcurrentMark :=
  { cm with has_overflown := true }

/-- mark_stack_push (header lines 453-459, body in the header):
if par_push_chunk fails, set_has_overflown and return false; otherwise
return true. -/
def G1ConcurrentMark.mark_stack_push (cm : G1ConcurrentMark)
    (arr : List G1TaskQueueEntry) : Bool × G1ConcurrentMark :=
  match cm.global_mark_stack.par_push_chunk arr with
  | none => (false, cm.set_has_overflown)
  | some ms => (true, { cm with global_mark_stack := ms })

/-- mark_stack_pop (header lines 460-462, body in the header). -/
def G1ConcurrentMark.mark_stack_pop (cm : G1ConcurrentMark) :
    Option (List G1TaskQueueEntry) × G1ConcurrentMark :=
  match cm.global_mark_stack.par_pop_chunk with
  | none => (none, cm)
  | some r => (some r.1, { cm with global_mark_stack := r.2 })

/-- Modelled from the spec: marking on the next bitmap (G1CMBitMap, whose
code is not under src). Spec 4.1: mark(addr) is an atomic test-and-set that
returns true iff this call performed the 0 -> 1 transition. -/
def G1ConcurrentMark.mark_in_next_bitmap (cm : G1ConcurrentMark) (addr : Nat) :
    Bool × G1ConcurrentMark :=
  if addr ∈ cm.next_mark_bitmap then
    (false, cm)
  else
    (true, { cm with next_mark_bitmap := addr :: cm.next_mark_bitmap })

/-- The regular clock call is called once the scanned words reach this limit
(header line 612): words_scanned_period = 12*1024. -/
def G1CMTask.words_scanned_period : Nat := 12 * 1024

/-- The regular clock call is called once the number of visited references
reaches this limit (header line 615): refs_reached_period = 1024. -/
def G1CMTask.refs_reached_period : Nat := 1024

/-- Initial value for the hash seed, used in the work stealing code
(header line 617). -/
def G1CMTask.init_hash_seed : Nat := 17

/-- Per-worker marking task state (header lines 607-825): the scan counters
and their limits, the local task queue with its bound, the local finger
(none when not scanning a region, mirroring the NULL pointer), the current
region limit, and the abort flag. -/
structure G1CMTask where
  words_scanned : Nat
  words_scanned_limit : Nat
  refs_reached : Nat
  refs_reached_limit : Nat
  task_queue : List G1TaskQueueEntry
  task_queue_capacity : Nat
  finger : Option Nat
  region_limit : Nat
  has_aborted : Bool
deriving DecidableEq, Repr

/-- check_limits (header lines 713-718, body in the header): reached_limit()
is invoked iff words_scanned >= words_scanned_limit or
refs_reached >= refs_reached_limit. This definition returns whether that
call happens. -/
def G1CMTask.check_limits (t : G1CMTask) : Bool :=
  decide (t.words_scanned ≥ t.words_scanned_limit) ||
    decide (t.refs_reached ≥ t.refs_reached_limit)

/-- Modelled from the spec: the body of G1CMTask::reset is not under src
(only its declaration, header line 734). Spec 4.6/4.7: phase-start reset
zeroes the counters; words_scanned_limit starts at words_scanned_period and
refs_reached_limit at refs_reached_period. -/
def G1CMTask.reset (t : G1CMTask) : G1CMTask :=
  { t with words_scanned := 0,
           words_scanned_limit := G1CMTask.words_scanned_period,
           refs_reached := 0,
           refs_reached_limit := G1CMTask.refs_reached_period }

/-- increment_refs_reached (header line 777, body in the header). -/
def G1CMTask.increment_refs_reached (t : G1CMTask) : G1CMTask :=
  { t with refs_reached := t.refs_reached + 1 }

/-- Modelled from the spec: the body of G1CMTask::is_below_finger is not
under src (only its declaration and comment, header lines 723-726: test
whether obj might have already been passed over by the mark bitmap scan, and
so needs to be pushed onto the mark stack). Spec 4.7: enqueue iff obj is
below the global finger and below the scanning finger that would otherwise
pass it; an object lying in the not-yet-scanned part [finger, region_limit)
of the current region will still be reached by the local bitmap scan, so it
needs no push; with no current region only the global finger matters. -/
def G1CMTask.is_below_finger (t : G1CMTask) (objAddr global_finger : Nat) : Bool :=
  decide (objAddr < global_finger) &&
    (match t.finger with
     | none => true
     | some local_finger =>
       !(decide (local_finger ≤ objAddr) && decide (objAddr < t.region_limit)))

/-- Modelled from the spec: the body of G1CMTask::move_entries_to_global_stack
is not under src (only its declaration, header line 796). Spec 4.3/4.7: the
owner moves up to one chunk of entries from the local queue into a buffer and
pushes it with mark_stack_push; if the global stack rejects the chunk, the
task sets its own has_aborted flag (spec 4.7, overflow handling) and
mark_stack_push has already set has_overflown. -/
def G1CMTask.move_entries_to_global_stack (t : G1CMTask) (cm : G1ConcurrentMark) :
    G1CMTask × G1ConcurrentMark :=
  let buffer := t.task_queue.take G1CMMarkStack.EntriesPerChunk
  let rest := t.task_queue.drop G1CMMarkStack.EntriesPerChunk
  let r := cm.mark_stack_push buffer
  if r.1 then
    ({ t with task_queue := rest }, r.2)
  else
    ({ t with task_queue := rest, has_aborted := true }, r.2)

/-- Modelled from the spec: the body of G1CMTask::push is not under src
(only its declaration, header line 793). Spec 4.3/4.7: push onto the bounded
local queue; when the queue is full, first flush one chunk of entries to the
global mark stack, after which the local push is guaranteed to succeed. -/
def G1CMTask.push (t : G1CMTask) (cm : G1ConcurrentMark)
    (task_entry : G1TaskQueueEntry) : G1CMTask × G1ConcurrentMark :=
  if t.task_queue.length < t.task_queue_capacity then
    ({ t with task_queue := task_entry :: t.task_queue }, cm)
  else
    let f := t.move_entries_to_global_stack cm
    ({ f.1 with task_queue := task_entry :: f.1.task_queue }, f.2)

/-- Modelled from the spec: the body of G1CMTask::make_reference_grey is not
under src (only its declaration and comment, header lines 779-782: grey the
object by marking it; if not already marked, push it on the local queue if
below the finger). Spec 4.7: attempt the bitmap mark; if already marked,
skip; otherwise increment refs_reached and, iff is_below_finger holds for
the global finger, push the oop entry. -/
def G1CMTask.make_reference_grey (t : G1CMTask) (cm : G1ConcurrentMark)
    (obj : Nat) : G1CMTask × G1ConcurrentMark :=
  let m := cm.mark_in_next_bitmap obj
  if m.1 then
    let t1 := t.increment_refs_reached
    if t1.is_below_finger obj m.2.finger then
      t1.push m.2 (G1TaskQueueEntry.from_oop obj)
    else
      (t1, m.2)
  else
    (t, m.2)

/-! Theorems -/

/-- Helper: claim_next on an aborted root-region set is a no-op returning
none. -/
theorem claim_next_of_aborted (s : G1CMRootRegions) (h : s.should_abort = true) :
    s.claim_next = (none, s) := by
  simp [G1CMRootRegions.claim_next, h]

/-- C7: the number of task-queue entries that fit in one global mark-stack
chunk, EntriesPerChunk, equals 1023 (1024 minus the one slot reserved for
the next pointer of the chunk). -/
theorem entriesPerChunk_eq_1023 : G1CMMarkStack.EntriesPerChunk = 1023 := rfl

/-- C6: a G1TaskQueueEntry is one machine word whose low bit discriminates
its kind: for every word-aligned address a, from_slice a satisfies
is_array_slice and slice returns a; for every non-null word-aligned object
reference o, from_oop o satisfies is_oop (low bit 0), obj returns o and the
entry is not the null sentinel; the all-zero default-constructed entry is
recognized by is_null. -/
theorem taskQueueEntry_tagged_word :
    (∀ a : Nat, a % 2 = 0 →
      (G1TaskQueueEntry.from_slice a).is_array_slice = true ∧
      (G1TaskQueueEntry.from_slice a).slice = a) ∧
    (∀ o : Nat, o ≠ 0 → o % 2 = 0 →
      (G1TaskQueueEntry.from_oop o).is_oop = true ∧
      (G1TaskQueueEntry.from_oop o).holder % 2 = 0 ∧
      (G1TaskQueueEntry.from_oop o).obj = o ∧
      (G1TaskQueueEntry.from_oop o).is_null = false) ∧
    G1TaskQueueEntry.default_entry.is_null = true := by
  refine ⟨fun a ha => ⟨?_, ?_⟩, fun o ho he => ⟨?_, ?_, rfl, ?_⟩, rfl⟩
  · simp only [G1TaskQueueEntry.from_slice, G1TaskQueueEntry.is_array_slice,
      G1TaskQueueEntry.ArraySliceBit, decide_eq_true_eq]
    omega
  · simp only [G1TaskQueueEntry.from_slice, G1TaskQueueEntry.slice,
      G1TaskQueueEntry.ArraySliceBit]
    omega
  · simp only [G1TaskQueueEntry.from_oop, G1TaskQueueEntry.is_oop,
      G1TaskQueueEntry.is_array_slice, Bool.not_eq_true']
    simp [he]
  · simpa [G1TaskQueueEntry.from_oop] using he
  · simpa [G1TaskQueueEntry.from_oop, G1TaskQueueEntry.is_null] using ho

/-- Witness for C6 at the concrete slice address 8 and oop 16. -/
theorem taskQueueEntry_tagged_word_witness :
    (G1TaskQueueEntry.from_slice 8).is_array_slice = true ∧
    (G1TaskQueueEntry.from_slice 8).slice = 8 ∧
    (G1TaskQueueEntry.from_oop 16).is_oop = true :=
  ⟨(taskQueueEntry_tagged_word.1 8 (by decide)).1,
   (taskQueueEntry_tagged_word.1 8 (by decide)).2,
   (taskQueueEntry_tagged_word.2.1 16 (by decide) (by decide)).1⟩

/-- C3: mark_stack_push returns true and leaves has_overflown unchanged
when par_push_chunk succeeds; when par_push_chunk rejects the chunk, it
sets has_overflown and returns false; and a false return happens exactly on
overflow, so overflow is never surfaced to callers as any other kind of
error. -/
theorem mark_stack_push_overflow_spec :
    ∀ (cm : G1ConcurrentMark) (arr : List G1TaskQueueEntry),
      (∀ ms, cm.global_mark_stack.par_push_chunk arr = some ms →
        (cm.mark_stack_push arr).1 = true ∧
        (cm.mark_stack_push arr).2.has_overflown = cm.has_overflown) ∧
      (cm.global_mark_stack.par_push_chunk arr = none →
        (cm.mark_stack_push arr).1 = false ∧
        (cm.mark_stack_push arr).2.has_overflown = true) ∧
      ((cm.mark_stack_push arr).1 = false ↔
        cm.global_mark_stack.par_push_chunk arr = none) := by
  intro cm arr
  cases hp : cm.global_mark_stack.par_push_chunk arr with
  | none =>
    simp [G1ConcurrentMark.mark_stack_push, hp, G1ConcurrentMark.set_has_overflown]
  | some ms =>
    simp [G1ConcurrentMark.mark_stack_push, hp]

/-- Concrete state whose global mark stack is at capacity, so that the next
push overflows. -/
def cmAtCapacity : G1ConcurrentMark :=
  { global_mark_stack :=
      { chunk_list := [], free_list := 0, hwm := 0,
        chunk_capacity := 0, max_chunk_capacity := 0 },
    has_overflown := false, finger := 0, heap_end := 0, next_mark_bitmap := [] }

/-- Witness for C3 on the overflow branch at a concrete full stack. -/
theorem mark_stack_push_overflow_spec_witness :
    (cmAtCapacity.mark_stack_push []).1 = false ∧
    (cmAtCapacity.mark_stack_push []).2.has_overflown = true :=
  (mark_stack_push_overflow_spec cmAtCapacity []).2.1 (by decide)

/-- C8: a reset marking task starts with words_scanned_limit = 12*1024 words
and refs_reached_limit = 1024; check_limits invokes reached_limit exactly
when words_scanned has reached words_scanned_limit or refs_reached has
reached refs_reached_limit. -/
theorem task_limits_spec :
    (∀ t : G1CMTask, t.reset.words_scanned_limit = 12 * 1024 ∧
      t.reset.refs_reached_limit = 1024) ∧
    (∀ t : G1CMTask, t.check_limits = true ↔
      (t.words_scanned ≥ t.words_scanned_limit ∨
       t.refs_reached ≥ t.refs_reached_limit)) := by
  refine ⟨fun t => ⟨rfl, rfl⟩, fun t => ?_⟩
  simp [G1CMTask.check_limits]

/-- Concrete task state whose words-scanned counter has passed its limit. -/
def taskPastLimit : G1CMTask :=
  { words_scanned := 10, words_scanned_limit := 5,
    refs_reached := 0, refs_reached_limit := 99,
    task_queue := [], task_queue_capacity := 0,
    finger := none, region_limit := 0, has_aborted := false }

/-- Witness for C8 at a concrete task state past its words limit. -/
theorem task_limits_spec_witness : taskPastLimit.check_limits = true :=
  (task_limits_spec.2 taskPastLimit).mpr (Or.inl (by decide))

/-- C9: abort() sets the should_abort flag, and every claim_next call made
after abort() returns none, however many are made. -/
theorem rootRegions_abort_blocks_claims :
    ∀ (s : G1CMRootRegions) (n : Nat),
      (s.abort).should_abort = true ∧
      (runClaimNext s.abort n).1 = List.replicate n none := by
  have key : ∀ (m : Nat) (r : G1CMRootRegions), r.should_abort = true →
      (runClaimNext r m).1 = List.replicate m none := by
    intro m
    induction m with
    | zero => intro r hr; rfl
    | succ k ih =>
      intro r hr
      simp only [runClaimNext, claim_next_of_aborted r hr, List.replicate_succ,
        List.cons.injEq]
      exact ⟨trivial, ih r hr⟩
  intro s n
  exact ⟨rfl, key n s.abort rfl⟩

/-- C10: expand (via resize) presupposes an empty stack: the post-state
always has an empty chunk list and a discarded free list, with capacity
doubled up to the maximum; on an empty stack the (empty) contents are
trivially preserved, while on a non-empty stack the contents are lost, so
calling expand there violates the documented precondition. -/
theorem markStack_expand_empty_precondition :
    ∀ s : G1CMMarkStack,
      (s.expand).chunk_list = [] ∧
      (s.expand).free_list = 0 ∧
      (s.expand).chunk_capacity = min (2 * s.chunk_capacity) s.max_chunk_capacity ∧
      (s.is_empty = true → (s.expand).chunk_list = s.chunk_list) ∧
      (s.chunk_list ≠ [] → (s.expand).chunk_list ≠ s.chunk_list) := by
  intro s
  refine ⟨rfl, rfl, rfl, ?_, ?_⟩
  · intro h
    simp only [G1CMMarkStack.is_empty, List.isEmpty_iff] at h
    simp [G1CMMarkStack.expand, G1CMMarkStack.resize, h]
  · intro h heq
    have hnil : s.chunk_list = [] := by
      have hexp : (s.expand).chunk_list = [] := rfl
      rw [hexp] at heq
      exact heq.symm
    exact h hnil

/-- Concrete non-empty mark stack. -/
def msNonEmpty : G1CMMarkStack :=
  { chunk_list := [[G1TaskQueueEntry.from_oop 2]], free_list := 0, hwm := 1,
    chunk_capacity := 1, max_chunk_capacity := 1 }

/-- Witness for C10 at a concrete non-empty stack. -/
theorem markStack_expand_empty_precondition_witness :
    (msNonEmpty.expand).chunk_list = [] ∧
    (msNonEmpty.expand).chunk_list ≠ msNonEmpty.chunk_list :=
  ⟨(markStack_expand_empty_precondition msNonEmpty).1,
   (markStack_expand_empty_precondition msNonEmpty).2.2.2.2 (by decide)⟩

/-- Helper: a successful par_push_chunk prepends the pushed buffer to the
chunk list. -/
theorem par_push_chunk_chunk_list {s s1 : G1CMMarkStack}
    {buffer : List G1TaskQueueEntry} (h : s.par_push_chunk buffer = some s1) :
    s1.chunk_list = buffer :: s.chunk_list := by
  unfold G1CMMarkStack.par_push_chunk at h
  split_ifs at h
  · rw [← Option.some.inj h]
  · rw [← Option.some.inj h]

/-- Helper: a successful par_pop_chunk returns the head chunk of the chunk
list and the state holding the tail. -/
theorem par_pop_chunk_shape {s : G1CMMarkStack}
    {r : List G1TaskQueueEntry × G1CMMarkStack} (h : s.par_pop_chunk = some r) :
    s.chunk_list = r.1 :: r.2.chunk_list := by
  unfold G1CMMarkStack.par_pop_chunk at h
  cases hc : s.chunk_list with
  | nil => rw [hc] at h; exact absurd h (by simp)
  | cons c rest =>
    rw [hc] at h
    have hr := Option.some.inj h
    subst hr
    rfl

/-- Helper: a chunk present in the chunk list either survives a trace of
mark-stack operations or is returned by one of the pops of that trace. -/
theorem runMarkStackOps_mem (ops : List MSOp) :
    ∀ (s : G1CMMarkStack) (b : List G1TaskQueueEntry), b ∈ s.chunk_list →
      b ∈ (runMarkStackOps s ops).1.chunk_list ∨ b ∈ (runMarkStackOps s ops).2 := by
  induction ops with
  | nil => intro s b hb; exact Or.inl hb
  | cons op ops ih =>
    intro s b hb
    cases op with
    | push buffer =>
      cases hp : s.par_push_chunk buffer with
      | none => simpa only [runMarkStackOps, hp] using ih s b hb
      | some s1 =>
        have h1 : s1.chunk_list = buffer :: s.chunk_list :=
          par_push_chunk_chunk_list hp
        simpa only [runMarkStackOps, hp] using
          ih s1 b (by rw [h1]; exact List.mem_cons_of_mem _ hb)
    | pop =>
      cases hp : s.par_pop_chunk with
      | none => simpa only [runMarkStackOps, hp] using ih s b hb
      | some r =>
        have hs : s.chunk_list = r.1 :: r.2.chunk_list := par_pop_chunk_shape hp
        simp only [runMarkStackOps, hp]
        rw [hs] at hb
        rcases List.mem_cons.mp hb with h | h
        · exact Or.inr (by simp [h])
        · rcases ih r.2 b h with h2 | h2
          · exact Or.inl h2
          · exact Or.inr (List.mem_cons_of_mem _ h2)

/-- C4: a buffer of at most EntriesPerChunk entries pushed by a successful
par_push_chunk is, in any continuation of the linearized trace that drains
the chunk list, returned by some later par_pop_chunk as a buffer holding
the same multiset of entries once the trailing null terminator entries are
stripped. -/
theorem markStack_chunk_roundtrip :
    ∀ (s : G1CMMarkStack) (buffer : List G1TaskQueueEntry)
      (s1 : G1CMMarkStack) (ops : List MSOp),
      buffer.length ≤ G1CMMarkStack.EntriesPerChunk →
      s.par_push_chunk buffer = some s1 →
      (runMarkStackOps s1 ops).1.chunk_list = [] →
      ∃ b ∈ (runMarkStackOps s1 ops).2,
        (dropTrailingNulls b).Perm (dropTrailingNulls buffer) := by
  intro s buffer s1 ops hlen hpush hdrain
  have hb : buffer ∈ s1.chunk_list := by
    rw [par_push_chunk_chunk_list hpush]
    exact List.mem_cons_self _ _
  rcases runMarkStackOps_mem ops s1 buffer hb with h | h
  · rw [hdrain] at h
    exact absurd h (List.not_mem_nil _)
  · exact ⟨buffer, h, List.Perm.refl _⟩

/-- Concrete one-chunk mark stack states for the C4 witness: empty stack of
capacity one, and the state after pushing one buffer into it. -/
def msEmptyOne : G1CMMarkStack :=
  { chunk_list := [], free_list := 0, hwm := 0,
    chunk_capacity := 1, max_chunk_capacity := 1 }

/-- The state after pushing the one-entry buffer into msEmptyOne. -/
def msPushed : G1CMMarkStack :=
  { chunk_list := [[G1TaskQueueEntry.from_oop 2]], free_list := 0, hwm := 1,
    chunk_capacity := 1, max_chunk_capacity := 1 }

/-- Witness for C4: pushing a one-entry buffer and then popping returns a
buffer with the same entries. -/
theorem markStack_chunk_roundtrip_witness :
    ∃ b ∈ (runMarkStackOps msPushed [MSOp.pop]).2,
      (dropTrailingNulls b).Perm
        (dropTrailingNulls [G1TaskQueueEntry.from_oop 2]) :=
  markStack_chunk_roundtrip msEmptyOne [G1TaskQueueEntry.from_oop 2] msPushed
    [MSOp.pop] (by decide) (by decide) (by decide)

/-- Helper: the finger is always advanced by the region size (the fetch-add
happens before the pre-value is inspected). -/
theorem claim_region_snd (h : G1Heap) (finger : Nat) :
    (claim_region h finger).2 = finger + h.region_size := by
  simp only [claim_region]
  split_ifs <;> rfl

/-- Helper: for an address at or above heap_start, the covering region
brackets the address. -/
theorem region_at_bounds (h : G1Heap) (addr : Nat) (hR : 0 < h.region_size)
    (hs : h.heap_start ≤ addr) :
    (h.region_at addr).bottom ≤ addr ∧ addr < (h.region_at addr).rend := by
  have h1 : (addr - h.heap_start) / h.region_size * h.region_size +
      (addr - h.heap_start) % h.region_size = addr - h.heap_start :=
    Nat.div_add_mod' _ _
  have h2 : (addr - h.heap_start) % h.region_size < h.region_size :=
    Nat.mod_lt _ hR
  refine ⟨?_, ?_⟩
  · show h.heap_start +
      (addr - h.heap_start) / h.region_size * h.region_size ≤ addr
    omega
  · show addr < h.heap_start +
      (addr - h.heap_start) / h.region_size * h.region_size + h.region_size
    omega

/-- Helper: claim_region with the pre-value at or past heap_end returns
none. -/
theorem claim_region_out (h : G1Heap) (finger : Nat) (hf : h.heap_end ≤ finger) :
    (claim_region h finger).1 = none := by
  simp [claim_region, hf]

/-- Helper: claim_region on an empty region (tams = bottom) returns none. -/
theorem claim_region_empty (h : G1Heap) (finger : Nat) (hf : finger < h.heap_end)
    (he : (h.region_at finger).tams = (h.region_at finger).bottom) :
    (claim_region h finger).1 = none := by
  have h1 : ¬ h.heap_end ≤ finger := Nat.not_le.mpr hf
  simp [claim_region, h1, he]

/-- Helper: claim_region on a non-empty region returns that region. -/
theorem claim_region_nonempty (h : G1Heap) (finger : Nat) (hf : finger < h.heap_end)
    (he : (h.region_at finger).tams ≠ (h.region_at finger).bottom) :
    (claim_region h finger).1 = some (h.region_at finger) := by
  have h1 : ¬ h.heap_end ≤ finger := Nat.not_le.mpr hf
  simp [claim_region, h1, he]

/-- Helper: inversion of a successful claim: the pre-value was inside the
heap, the covering region is non-empty, and it is the result. -/
theorem claim_region_some_inv {h : G1Heap} {finger : Nat} {r : HeapRegion}
    (hc : (claim_region h finger).1 = some r) :
    finger < h.heap_end ∧
    (h.region_at finger).tams ≠ (h.region_at finger).bottom ∧
    r = h.region_at finger := by
  by_cases h1 : h.heap_end ≤ finger
  · rw [claim_region_out h finger h1] at hc
    cases hc
  · have hf : finger < h.heap_end := Nat.not_le.mp h1
    by_cases h2 : (h.region_at finger).tams = (h.region_at finger).bottom
    · rw [claim_region_empty h finger hf h2] at hc
      cases hc
    · have h3 := (claim_region_nonempty h finger hf h2).symm.trans hc
      exact ⟨hf, h2, (Option.some.inj h3).symm⟩

/-- A heap of two regions, [0,2) and [2,4), both empty: every region bottom
equals its top-at-mark-start. -/
def hAllEmptyHeap : G1Heap :=
  { heap_start := 0, heap_end := 4, region_size := 2, tams_of := fun b => b }

/-- Counterexample to C1 as stated: in hAllEmptyHeap the claim with the
finger pre-value 0 (below heap_end = 4) returns none because the covering
region [0,2) is empty, while the finger still advances by the region size;
so a pre-value below heap_end does not always yield the covering region,
exactly as the in-source comment on claim_region (header lines 406-419)
warns. -/
theorem claim_region_counterexample :
    hAllEmptyHeap.heap_start < hAllEmptyHeap.heap_end ∧
    (claim_region hAllEmptyHeap hAllEmptyHeap.heap_start).1 = none ∧
    (claim_region hAllEmptyHeap hAllEmptyHeap.heap_start).2 =
      hAllEmptyHeap.heap_start + hAllEmptyHeap.region_size := by
  refine ⟨by decide, by decide, by decide⟩

/-- C1 (amended): claim_region fetch-adds the finger by the region size
(the new finger is the pre-value plus the region size in every case); if
the pre-value is at least heap_end it returns none; if the pre-value is
inside the heap it returns the region covering the pre-value when that
region is non-empty, and returns none when that region is empty, the finger
nevertheless having advanced past it (out_of_regions is then still false,
telling the caller to call claim_region again). -/
theorem claim_region_amended_spec :
    ∀ (h : G1Heap) (finger : Nat),
      0 < h.region_size → h.heap_start ≤ finger →
      (claim_region h finger).2 = finger + h.region_size ∧
      (h.heap_end ≤ finger → (claim_region h finger).1 = none) ∧
      (finger < h.heap_end →
        ((h.region_at finger).tams = (h.region_at finger).bottom →
          (claim_region h finger).1 = none ∧ out_of_regions h finger = false) ∧
        ((h.region_at finger).tams ≠ (h.region_at finger).bottom →
          (claim_region h finger).1 = some (h.region_at finger) ∧
          (h.region_at finger).bottom ≤ finger ∧
          finger < (h.region_at finger).rend)) := by
  intro h finger hR hs
  refine ⟨claim_region_snd h finger, fun hf => claim_region_out h finger hf,
    fun hf => ⟨fun he => ⟨claim_region_empty h finger hf he, ?_⟩,
      fun he => ⟨claim_region_nonempty h finger hf he,
        (region_at_bounds h finger hR hs).1,
        (region_at_bounds h finger hR hs).2⟩⟩⟩
  simp [out_of_regions, Nat.not_le.mpr hf]

/-- A heap of two non-empty regions, [0,2) and [2,4), each with tams one
word above bottom. -/
def hTwoLive : G1Heap :=
  { heap_start := 0, heap_end := 4, region_size := 2, tams_of := fun b => b + 1 }

/-- Witness for the amended C1 at the concrete heap hTwoLive with the
finger at 0. -/
theorem claim_region_amended_spec_witness :
    (claim_region hTwoLive 0).2 = 0 + hTwoLive.region_size ∧
    (claim_region hTwoLive 0).1 = some (hTwoLive.region_at 0) :=
  ⟨(claim_region_amended_spec hTwoLive 0 (by decide) (by decide)).1,
   (((claim_region_amended_spec hTwoLive 0 (by decide) (by decide)).2.2
      (by decide)).2 (by decide)).1⟩

/-- Helper: after n linearized claims the finger has advanced by n region
sizes. -/
theorem runClaims_snd (h : G1Heap) : ∀ (n finger : Nat),
    (runClaims h finger n).2 = finger + n * h.region_size := by
  intro n
  induction n with
  | zero => intro f; simp [runClaims]
  | succ k ih =>
    intro f
    simp only [runClaims]
    rw [ih, claim_region_snd]
    ring

/-- Helper: a trace of n claims produces n results. -/
theorem runClaims_length (h : G1Heap) : ∀ (n finger : Nat),
    (runClaims h finger n).1.length = n := by
  intro n
  induction n with
  | zero => intro f; rfl
  | succ k ih =>
    intro f
    simp only [runClaims, List.length_cons, ih]

/-- Helper: the i-th result of a claim trace is the claim made with the
finger pre-value finger + i * region_size. -/
theorem runClaims_get (h : G1Heap) : ∀ (n i finger : Nat), i < n →
    (runClaims h finger n).1.get? i =
      some ((claim_region h (finger + i * h.region_size)).1) := by
  intro n
  induction n with
  | zero => intro i f hi; exact absurd hi (Nat.not_lt_zero i)
  | succ k ih =>
    intro i f hi
    cases i with
    | zero => simp [runClaims]
    | succ j =>
      have hj : j < k := by omega
      simp only [runClaims, List.get?_cons_succ]
      rw [ih j (claim_region h f).2 hj, claim_region_snd]
      have hstep : f + h.region_size + j * h.region_size =
          f + (j + 1) * h.region_size := by ring
      rw [hstep]

/-- Helper: the region covering a region-aligned address has that address
as its bottom. -/
theorem region_at_aligned (h : G1Heap) (hR : 0 < h.region_size) (k : Nat) :
    (h.region_at (h.heap_start + k * h.region_size)).bottom =
      h.heap_start + k * h.region_size := by
  show h.heap_start +
      (h.heap_start + k * h.region_size - h.heap_start) / h.region_size *
        h.region_size = h.heap_start + k * h.region_size
  rw [Nat.add_sub_cancel_left, Nat.mul_div_cancel _ hR]

/-- Counterexample to C2 as stated: in hAllEmptyHeap (two regions, both
empty) a complete phase of two linearized claims moves the finger to
heap_end yet both calls return none, so no call at all succeeds with the
region [0,2) even though that region exists, contradicting the claim that
exactly one call succeeds per region. -/
theorem claim_region_uniqueness_counterexample :
    hAllEmptyHeap.heap_start < hAllEmptyHeap.heap_end ∧
    (runClaims hAllEmptyHeap hAllEmptyHeap.heap_start 2).2 =
      hAllEmptyHeap.heap_end ∧
    (runClaims hAllEmptyHeap hAllEmptyHeap.heap_start 2).1 = [none, none] :=
  ⟨by decide, by decide, by decide⟩

/-- C2 (amended): over a linearized phase of n claim_region calls starting
with the finger published at heap_start: the finger after any prefix equals
heap_start plus the number of claims times the region size, hence it never
decreases; every successful claim has advanced the finger past the end of
the returned region; each region is successfully claimed by at most one
call; and each non-empty region below heap_end offered within the phase is
successfully claimed by exactly the call that saw the finger at its bottom
(empty regions are never returned, per the corrected C1). -/
theorem claim_region_uniqueness :
    ∀ (h : G1Heap) (n k i j : Nat) (r : HeapRegion),
      0 < h.region_size →
      ((runClaims h h.heap_start n).2 = h.heap_start + n * h.region_size) ∧
      (i ≤ j →
        (runClaims h h.heap_start i).2 ≤ (runClaims h h.heap_start j).2) ∧
      ((runClaims h h.heap_start n).1.get? i = some (some r) →
        r.rend ≤ (runClaims h h.heap_start (i + 1)).2) ∧
      ((runClaims h h.heap_start n).1.get? i = some (some r) →
        (runClaims h h.heap_start n).1.get? j = some (some r) → i = j) ∧
      (h.heap_start + k * h.region_size < h.heap_end →
        k < n →
        (h.region_at (h.heap_start + k * h.region_size)).tams ≠
          (h.region_at (h.heap_start + k * h.region_size)).bottom →
        (runClaims h h.heap_start n).1.get? k =
          some (some (h.region_at (h.heap_start + k * h.region_size)))) := by
  intro h n k i j r hR
  have hsucc : ∀ (i2 : Nat) (r2 : HeapRegion),
      (runClaims h h.heap_start n).1.get? i2 = some (some r2) →
      i2 < n ∧ r2 = h.region_at (h.heap_start + i2 * h.region_size) ∧
      r2.bottom = h.heap_start + i2 * h.region_size := by
    intro i2 r2 hget
    have hi2 : i2 < n := by
      by_contra hge
      rw [List.get?_eq_none.mpr (by rw [runClaims_length]; omega)] at hget
      cases hget
    rw [runClaims_get h n i2 h.heap_start hi2] at hget
    have hinv := claim_region_some_inv (Option.some.inj hget)
    exact ⟨hi2, hinv.2.2, by rw [hinv.2.2, region_at_aligned h hR i2]⟩
  refine ⟨runClaims_snd h n h.heap_start, ?_, ?_, ?_, ?_⟩
  · intro hij
    rw [runClaims_snd, runClaims_snd]
    exact Nat.add_le_add_left (Nat.mul_le_mul_right _ hij) _
  · intro hget
    obtain ⟨hi, hri, hbi⟩ := hsucc i r hget
    rw [runClaims_snd]
    have hrend : r.rend = r.bottom + h.region_size := by rw [hri]; rfl
    have hmul : (i + 1) * h.region_size =
        i * h.region_size + h.region_size := by ring
    omega
  · intro hgi hgj
    obtain ⟨hi, hri, hbi⟩ := hsucc i r hgi
    obtain ⟨hj2, hrj, hbj⟩ := hsucc j r hgj
    have hij : i * h.region_size = j * h.region_size := by omega
    exact Nat.eq_of_mul_eq_mul_right hR hij
  · intro hk hkn hne
    rw [runClaims_get h n k h.heap_start hkn]
    rw [claim_region_nonempty h _ hk hne]

/-- Witness for the amended C2 on the concrete heap hTwoLive: the first
claim of a two-claim phase succeeds with the first region. -/
theorem claim_region_uniqueness_witness :
    (runClaims hTwoLive hTwoLive.heap_start 2).1.get? 0 =
      some (some (hTwoLive.region_at
        (hTwoLive.heap_start + 0 * hTwoLive.region_size))) :=
  (claim_region_uniqueness hTwoLive 2 0 0 0 (hTwoLive.region_at 0)
      (by decide)).2.2.2.2 (by decide) (by decide) (by decide)

/-- Helper: a pushed entry always ends up in the local task queue, whether
or not a flush to the global stack was needed first. -/
theorem push_mem_task_queue (t : G1CMTask) (cm : G1ConcurrentMark)
    (e : G1TaskQueueEntry) : e ∈ (t.push cm e).1.task_queue := by
  unfold G1CMTask.push
  split_ifs
  · exact List.mem_cons_self _ _
  · exact List.mem_cons_self _ _

/-- C5: every object greyed by make_reference_grey (newly marked in the
next bitmap) for which the below-finger test holds against the global
finger is enqueued on some queue: on the local task queue, or inside some
chunk of the global mark stack (the destination of a flush); so it cannot
be missed by every future bitmap scan. -/
theorem below_finger_greyed_objects_enqueued :
    ∀ (t : G1CMTask) (cm : G1ConcurrentMark) (obj : Nat),
      obj ∉ cm.next_mark_bitmap →
      t.is_below_finger obj cm.finger = true →
      G1TaskQueueEntry.from_oop obj ∈
          (t.make_reference_grey cm obj).1.task_queue ∨
        ∃ c ∈ (t.make_reference_grey cm obj).2.global_mark_stack.chunk_list,
          G1TaskQueueEntry.from_oop obj ∈ c := by
  intro t cm obj hnm hbf
  left
  have hm1 : (cm.mark_in_next_bitmap obj).1 = true := by
    simp [G1ConcurrentMark.mark_in_next_bitmap, hnm]
  have hib : (t.increment_refs_reached).is_below_finger obj
      (cm.mark_in_next_bitmap obj).2.finger = true := by
    have hmf : (cm.mark_in_next_bitmap obj).2.finger = cm.finger := by
      simp [G1ConcurrentMark.mark_in_next_bitmap, hnm]
    rw [hmf]
    exact hbf
  simp only [G1CMTask.make_reference_grey, hm1, if_true, hib]
  exact push_mem_task_queue _ _ _

/-- Concrete task with no current region and a local queue of capacity 4. -/
def taskNoRegion : G1CMTask :=
  { words_scanned := 0, words_scanned_limit := 0,
    refs_reached := 0, refs_reached_limit := 0,
    task_queue := [], task_queue_capacity := 4,
    finger := none, region_limit := 0, has_aborted := false }

/-- Concrete marking state with the global finger at 10 and an unmarked
bitmap. -/
def cmFingerTen : G1ConcurrentMark :=
  { global_mark_stack :=
      { chunk_list := [], free_list := 0, hwm := 0,
        chunk_capacity := 1, max_chunk_capacity := 1 },
    has_overflown := false, finger := 10, heap_end := 10,
    next_mark_bitmap := [] }

/-- Witness for C5 at the concrete task taskNoRegion greying object 2,
which lies below the global finger 10. -/
theorem below_finger_greyed_objects_enqueued_witness :
    G1TaskQueueEntry.from_oop 2 ∈
        (taskNoRegion.make_reference_grey cmFingerTen 2).1.task_queue ∨
      ∃ c ∈ (taskNoRegion.make_reference_grey
          cmFingerTen 2).2.global_mark_stack.chunk_list,
        G1TaskQueueEntry.from_oop 2 ∈ c :=
  below_finger_greyed_objects_enqueued taskNoRegion cmFingerTen 2
    (by decide) (by decide)
